import Mathlib

/-!
Shallow embedding of the `scorekeeper` survey service (`src/backend/server.js`).

The source file concatenates two complete variants of the same Express app:
  * a session-token variant (lines 1-251): `POST /api/admin/login` mints an
    opaque token held in an in-memory `activeSessions` set, and `requireAdmin`
    accepts any bearer token currently in that set;
  * a static-secret variant (lines 253-451): no login endpoint, `requireAdmin`
    compares the whole `Authorization` header against `Bearer ${ADMIN_PASSWORD}`.

Both variants share identical handler bodies for the routes they both expose,
so the per-route database logic is defined once (the `...Core` functions) and
each variant's dispatcher wires cores to its own route table and auth check.

Modelling conventions:
  * SQLite tables become Lean lists of row structures; `AUTOINCREMENT` /
    `last_insert_rowid()` become explicit next-id counters in `Db`.
  * JSON values submitted in the `answers` field become `JVal`; the `answers`
    field itself becomes `AnswersField` (`obj` = plain object, `arr` = array,
    `prim` = any non-object JSON value).  JS object keys are strings that the
    handler passes through `Number(qid)`; we carry the numeric key directly
    (`Int`), and for arrays `Object.entries`/`Object.values` enumerate the
    elements with their indices as keys, which `entriesOf`/`valuesOf` mirror.
  * `bcrypt.compare` is an external library call; the dispatcher takes its
    boolean outcome as a parameter (`passwordMatches`).
  * timestamps (`created_at`, `submitted_at`) are opaque `Nat` clock values
    supplied per request; SQLite fills them with `datetime('now')`.
-/

/-- A submitted JSON value, as far as the handlers inspect one: the score and
the stored value only depend on strict string equality with the accepted
tokens, so non-string values are kept by shape. -/
inductive JVal where
  | str (s : String)
  | num (n : Int)
  | bool (b : Bool)
  | jnull
deriving DecidableEq, Repr

/-- Points awarded for one submitted answer value, from
`val === "topp" ? 2 : val === "flash" ? 3 : 0` (strict equality: only the
string values can match). -/
def answerPoints : JVal → Int
  | .str s => if s = "topp" then 2 else if s = "flash" then 3 else 0
  | _ => 0

/-- `(val === "topp" || val === "flash") ? val : null` — the value actually
bound into the `answers` insert. -/
def safeVal : JVal → Option String
  | .str s => if s = "topp" ∨ s = "flash" then some s else none
  | _ => none

/-- The JSON shape of the request body's `answers` field.  `typeof x` is
`"object"` exactly for plain objects, arrays and `null`; `null` (like the
falsy primitives) is already rejected by the preceding `!answers` test, so
the handler proceeds exactly on `obj` and `arr`. -/
inductive AnswersField where
  | obj (entries : List (Int × JVal))
  | arr (elems : List JVal)
  | prim (v : JVal)
deriving DecidableEq, Repr

/-- Does `answers` survive `!answers || typeof answers !== "object"`?
Objects and arrays are truthy (including `[]` and `{}`) and of object type;
every primitive fails one of the two tests. -/
def AnswersField.isObjectType : AnswersField → Bool
  | .obj _ => true
  | .arr _ => true
  | .prim _ => false

/-- `Object.values(answers)`, the list the score is reduced over. -/
def valuesOf : AnswersField → List JVal
  | .obj entries => entries.map (fun e => e.2)
  | .arr elems => elems
  | .prim _ => []

/-- `Object.entries(answers)` with `Number(qid)` applied to each key: object
entries keep their numeric keys, array elements are keyed by index. -/
def entriesOf : AnswersField → List (Int × JVal)
  | .obj entries => entries
  | .arr elems => elems.enum.map (fun p => ((p.1 : Int), p.2))
  | .prim _ => []

/-- JS `String.prototype.trim` on the ASCII whitespace the handlers can
meet, implemented by structural recursion so that concrete instances
evaluate inside the kernel. -/
def jsTrim (s : String) : String :=
  ⟨(s.data.dropWhile Char.isWhitespace).reverse.dropWhile Char.isWhitespace
    |>.reverse⟩

/-- Is `pat` a prefix of `l`? -/
def listIsPrefixOf : List Char → List Char → Bool
  | [], _ => true
  | _ :: _, [] => false
  | p :: ps, c :: cs => p == c && listIsPrefixOf ps cs

/-- Replace the first occurrence of `pat` (non-empty in all uses) by `rep`,
as JS `String.prototype.replace` with a string pattern does. -/
def replaceFirstAux (pat rep : List Char) : List Char → List Char
  | [] => []
  | c :: cs =>
    if listIsPrefixOf pat (c :: cs) then rep ++ (c :: cs).drop pat.length
    else c :: replaceFirstAux pat rep cs

/-- JS `s.replace(pat, rep)` with a string pattern: first occurrence only. -/
def jsReplaceFirst (s pat rep : String) : String :=
  ⟨replaceFirstAux pat.data rep.data s.data⟩

/-- Insert into a list sorted by the boolean relation `le`. -/
def insertBy (le : α → α → Bool) (x : α) : List α → List α
  | [] => [x]
  | y :: ys => if le x y then x :: y :: ys else y :: insertBy le x ys

/-- Sorting by the boolean relation `le`; models SQLite `ORDER BY`, whose
order among ties is unspecified. -/
def sortBy (le : α → α → Bool) : List α → List α
  | [] => []
  | x :: xs => insertBy le x (sortBy le xs)

/-- Row of the `questions` table. -/
structure Question where
  id : Nat
  text : String
  position : Int
  created_at : Nat
deriving DecidableEq, Repr

/-- Row of the `responses` table. -/
structure ResponseRow where
  id : Nat
  name : String
  score : Int
  submitted_at : Nat
deriving DecidableEq, Repr

/-- Row of the `answers` table; `value` is the nullable TEXT column. -/
structure AnswerRow where
  id : Nat
  response_id : Nat
  question_id : Int
  value : Option String
deriving DecidableEq, Repr

/-- The database file: the three content tables plus the `AUTOINCREMENT`
counters that realize `last_insert_rowid()`.  (The session variant's `admin`
table lives in the same file; it is carried in `SessionState` below since the
static variant's schema does not create it.) -/
structure Db where
  questions : List Question
  responses : List ResponseRow
  answers : List AnswerRow
  nextQuestionId : Nat
  nextResponseId : Nat
  nextAnswerId : Nat
deriving DecidableEq, Repr

/-- One row of `GET /api/analytics`' per-question statistics. -/
structure QuestionStats where
  id : Nat
  text : String
  yes : Nat
  no : Nat
  total : Nat
deriving DecidableEq, Repr

/-- The JSON replies the handlers produce. -/
inductive Reply where
  | okTrue
  | questionList (rows : List (Nat × String × Int))
  | leaderboardList (rows : List (String × Int))
  | createdQuestion (id : Nat) (text : String) (position : Int)
  | submitted (id : Nat) (score : Int)
  | responseList (rows : List (ResponseRow × List (Int × Option String)))
  | analyticsReport (stats : List QuestionStats) (totalResponses : Nat)
  | tokenIssued (token : String)
  | err (status : Nat) (message : String)
  | notFound
deriving DecidableEq, Repr

/-- The parts of an HTTP request the handlers read: the `Authorization`
header, the JSON body fields, and the `:id` path parameter. -/
structure Request where
  authHeader : Option String := none
  password : Option String := none
  text : Option String := none
  name : Option String := none
  answers : Option AnswersField := none
  paramId : Nat := 0
deriving DecidableEq, Repr

/-- The routes appearing in the source (union over both variants). -/
inductive Endpoint where
  | health
  | adminLogin
  | getQuestions
  | getLeaderboard
  | postQuestions
  | putQuestion
  | deleteQuestion
  | postResponses
  | getResponses
  | deleteResponse
  | getAnalytics
deriving DecidableEq, Repr

/-- Routes registered by the session-token variant, in registration order. -/
def sessionRoutes : List Endpoint :=
  [.health, .adminLogin, .getQuestions, .getLeaderboard, .postQuestions,
   .putQuestion, .deleteQuestion, .postResponses, .getResponses,
   .deleteResponse, .getAnalytics]

/-- Routes registered by the static-secret variant, in registration order:
no login, no leaderboard, and no response delete. -/
def staticRoutes : List Endpoint :=
  [.health, .getQuestions, .postQuestions, .putQuestion, .deleteQuestion,
   .postResponses, .getResponses, .getAnalytics]

/-- Endpoints whose registration passes the `requireAdmin` middleware
(identical set in both variants, restricted to the routes each exposes). -/
def protectedEndpoints : List Endpoint :=
  [.postQuestions, .putQuestion, .deleteQuestion, .getResponses,
   .deleteResponse, .getAnalytics]

/-- `COALESCE(MAX(position), 0)` over the `questions` table. -/
def qsMaxPos : List Question → Int
  | [] => 0
  | q :: qs => qs.foldl (fun m x => max m x.position) q.position

/-- `INSERT INTO questions (text, position) VALUES (?, ?)` plus
`last_insert_rowid()`. -/
def dbInsertQuestion (text : String) (pos : Int) (now : Nat) (db : Db) :
    Nat × Db :=
  let id := db.nextQuestionId
  (id, { db with
          questions := db.questions ++ [⟨id, text, pos, now⟩],
          nextQuestionId := id + 1 })

/-- `UPDATE questions SET text = ? WHERE id = ?`. -/
def dbUpdateQuestionText (id : Nat) (text : String) (db : Db) : Db :=
  { db with
    questions := db.questions.map (fun q =>
      if q.id = id then { q with text := text } else q) }

/-- `DELETE FROM questions WHERE id = ?` — no cascade to `answers`. -/
def dbDeleteQuestion (id : Nat) (db : Db) : Db :=
  { db with questions := db.questions.filter (fun q => q.id ≠ id) }

/-- `INSERT INTO responses (name, score) VALUES (?, ?)` plus
`last_insert_rowid()`. -/
def dbInsertResponse (name : String) (score : Int) (now : Nat) (db : Db) :
    Nat × Db :=
  let id := db.nextResponseId
  (id, { db with
          responses := db.responses ++ [⟨id, name, score, now⟩],
          nextResponseId := id + 1 })

/-- `INSERT INTO answers (response_id, question_id, value) VALUES (?, ?, ?)`. -/
def dbInsertAnswer (rid : Nat) (qid : Int) (v : Option String) (db : Db) : Db :=
  { db with
    answers := db.answers ++ [⟨db.nextAnswerId, rid, qid, v⟩],
    nextAnswerId := db.nextAnswerId + 1 }

/-- `DELETE FROM answers WHERE response_id = ?` then
`DELETE FROM responses WHERE id = ?` (manual cascade, answers first). -/
def dbDeleteResponseCascade (id : Nat) (db : Db) : Db :=
  let afterAnswers :=
    { db with answers := db.answers.filter (fun a => a.response_id ≠ id) }
  { afterAnswers with
    responses := afterAnswers.responses.filter (fun r => r.id ≠ id) }

/-- `ORDER BY position ASC` comparison (ties left unspecified by SQLite; the
model sorts stably over the table's row order). -/
def posAscLe (a b : Question) : Bool := decide (a.position ≤ b.position)

/-- `ORDER BY score DESC` comparison. -/
def scoreDescLe (a b : ResponseRow) : Bool := decide (b.score ≤ a.score)

/-- `ORDER BY submitted_at DESC` comparison. -/
def submittedDescLe (a b : ResponseRow) : Bool :=
  decide (b.submitted_at ≤ a.submitted_at)

/-- `GET /api/questions`: `SELECT id, text, position FROM questions ORDER BY
position ASC`. -/
def questionsCore (db : Db) : Reply :=
  .questionList ((sortBy posAscLe db.questions).map
    (fun q => (q.id, q.text, q.position)))

/-- `GET /api/leaderboard`: `SELECT name, score FROM responses ORDER BY score
DESC LIMIT 5`. -/
def leaderboardRows (db : Db) : List (String × Int) :=
  ((sortBy scoreDescLe db.responses).map (fun r => (r.name, r.score))).take 5

/-- `POST /api/questions` after auth: validate non-empty trimmed text, compute
`COALESCE(MAX(position),0)+1`, insert, echo the new record. -/
def postQuestionsCore (text? : Option String) (now : Nat) (db : Db) :
    Reply × Db :=
  match text? with
  | none => (.err 400 "text is required", db)
  | some t =>
    if jsTrim t = "" then (.err 400 "text is required", db)
    else
      let pos := qsMaxPos db.questions + 1
      let r := dbInsertQuestion (jsTrim t) pos now db
      (.createdQuestion r.1 (jsTrim t) pos, r.2)

/-- `PUT /api/questions/:id` after auth: validate non-empty trimmed text,
update by id (zero rows affected when the id is absent), reply `{ok:true}`. -/
def putQuestionCore (id : Nat) (text? : Option String) (db : Db) :
    Reply × Db :=
  match text? with
  | none => (.err 400 "text is required", db)
  | some t =>
    if jsTrim t = "" then (.err 400 "text is required", db)
    else (.okTrue, dbUpdateQuestionText id (jsTrim t) db)

/-- `DELETE /api/questions/:id` after auth: unconditional delete by id, reply
`{ok:true}`. -/
def deleteQuestionCore (id : Nat) (db : Db) : Reply × Db :=
  (.okTrue, dbDeleteQuestion id db)

/-- `POST /api/responses` (public): validate `name` and `answers`, reduce the
score over `Object.values(answers)`, insert the response, then one answer row
per `Object.entries(answers)` entry with the sanitized value. -/
def postResponsesCore (name? : Option String) (answers? : Option AnswersField)
    (now : Nat) (db : Db) : Reply × Db :=
  match name? with
  | none => (.err 400 "name is required", db)
  | some name =>
    if jsTrim name = "" then (.err 400 "name is required", db)
    else
      match answers? with
      | none => (.err 400 "answers is required", db)
      | some af =>
        if !af.isObjectType then (.err 400 "answers is required", db)
        else
          let score := (valuesOf af).foldl (fun sum v => sum + answerPoints v) 0
          let ins := dbInsertResponse (jsTrim name) score now db
          let db2 := (entriesOf af).foldl
            (fun d e => dbInsertAnswer ins.1 e.1 (safeVal e.2) d) ins.2
          (.submitted ins.1 score, db2)

/-- `GET /api/responses` after auth: all responses newest-first, each with its
answer rows keyed by question id.  (The JS version folds the rows into an
object, where a duplicate `(response_id, question_id)` would be overwritten by
the later row; the model keeps the row list.) -/
def getResponsesCore (db : Db) : Reply :=
  .responseList ((sortBy submittedDescLe db.responses).map (fun r =>
    (r, (db.answers.filter (fun a => a.response_id = r.id)).map
      (fun a => (a.question_id, a.value)))))

/-- `DELETE /api/responses/:id` after auth (session variant only). -/
def deleteResponseCore (id : Nat) (db : Db) : Reply × Db :=
  (.okTrue, dbDeleteResponseCascade id db)

/-- The per-question statistics of `GET /api/analytics`: three `COUNT(*)`
queries per question, questions ordered by position. -/
def analyticsStats (db : Db) : List QuestionStats :=
  (sortBy posAscLe db.questions).map (fun q =>
    { id := q.id
      text := q.text
      yes := db.answers.countP
        (fun a => a.question_id == (q.id : Int) && a.value == some "topp")
      no := db.answers.countP
        (fun a => a.question_id == (q.id : Int) && a.value == some "flash")
      total := db.answers.countP
        (fun a => a.question_id == (q.id : Int) && a.value.isSome) })

/-- `GET /api/analytics` after auth. -/
def analyticsCore (db : Db) : Reply :=
  .analyticsReport (analyticsStats db) db.responses.length

/-- Session-variant `requireAdmin`: strip `"Bearer "` from the header (JS
`String.replace` with a string pattern replaces the first occurrence) and
test membership in the active-session set; an absent header or empty token is
falsy and fails. -/
def requireAdminSession (sessions : List String) (authHeader : Option String) :
    Bool :=
  match authHeader with
  | none => false
  | some h =>
    let token := jsReplaceFirst h "Bearer " ""
    !(token = "") && sessions.contains token

/-- Static-variant `requireAdmin`: the whole header must equal
`Bearer ${ADMIN_PASSWORD}`, compared as a literal string. -/
def requireAdminStatic (adminPassword : String) (authHeader : Option String) :
    Bool :=
  authHeader == some ("Bearer " ++ adminPassword)

/-- Process state of the session-token variant: the database file (including
the `admin` table's single `password_hash` row, `none` if absent) and the
in-memory `activeSessions` set. -/
structure SessionState where
  db : Db
  adminHash : Option String
  sessions : List String
deriving DecidableEq, Repr

/-- Dispatcher of the session-token variant.  `freshToken` is the token the
login handler would mint (`Date.now().toString(36) + Math.random()...`) and
`passwordMatches` is the outcome of `bcrypt.compare` against the stored hash;
both are oracles for external effects. -/
def handleSession (st : SessionState) (ep : Endpoint) (req : Request)
    (now : Nat) (freshToken : String) (passwordMatches : Bool) :
    Reply × SessionState :=
  match ep with
  | .health => (.okTrue, st)
  | .adminLogin =>
    match req.password with
    | none => (.err 400 "Password required", st)
    | some p =>
      if p = "" then (.err 400 "Password required", st)
      else
        match st.adminHash with
        | none => (.err 500 "Admin not configured", st)
        | some _ =>
          if !passwordMatches then (.err 401 "Invalid password", st)
          else (.tokenIssued freshToken,
                { st with sessions := freshToken :: st.sessions })
  | .getQuestions => (questionsCore st.db, st)
  | .getLeaderboard => (.leaderboardList (leaderboardRows st.db), st)
  | .postQuestions =>
    if !requireAdminSession st.sessions req.authHeader then
      (.err 401 "Unauthorized", st)
    else
      let r := postQuestionsCore req.text now st.db
      (r.1, { st with db := r.2 })
  | .putQuestion =>
    if !requireAdminSession st.sessions req.authHeader then
      (.err 401 "Unauthorized", st)
    else
      let r := putQuestionCore req.paramId req.text st.db
      (r.1, { st with db := r.2 })
  | .deleteQuestion =>
    if !requireAdminSession st.sessions req.authHeader then
      (.err 401 "Unauthorized", st)
    else
      let r := deleteQuestionCore req.paramId st.db
      (r.1, { st with db := r.2 })
  | .postResponses =>
    let r := postResponsesCore req.name req.answers now st.db
    (r.1, { st with db := r.2 })
  | .getResponses =>
    if !requireAdminSession st.sessions req.authHeader then
      (.err 401 "Unauthorized", st)
    else (getResponsesCore st.db, st)
  | .deleteResponse =>
    if !requireAdminSession st.sessions req.authHeader then
      (.err 401 "Unauthorized", st)
    else
      let r := deleteResponseCore req.paramId st.db
      (r.1, { st with db := r.2 })
  | .getAnalytics =>
    if !requireAdminSession st.sessions req.authHeader then
      (.err 401 "Unauthorized", st)
    else (analyticsCore st.db, st)

/-- Dispatcher of the static-secret variant.  Routes the variant does not
register fall through to Express's default 404. -/
def handleStatic (adminPassword : String) (db : Db) (ep : Endpoint)
    (req : Request) (now : Nat) : Reply × Db :=
  match ep with
  | .health => (.okTrue, db)
  | .adminLogin => (.notFound, db)
  | .getQuestions => (questionsCore db, db)
  | .getLeaderboard => (.notFound, db)
  | .postQuestions =>
    if !requireAdminStatic adminPassword req.authHeader then
      (.err 401 "Unauthorized", db)
    else postQuestionsCore req.text now db
  | .putQuestion =>
    if !requireAdminStatic adminPassword req.authHeader then
      (.err 401 "Unauthorized", db)
    else putQuestionCore req.paramId req.text db
  | .deleteQuestion =>
    if !requireAdminStatic adminPassword req.authHeader then
      (.err 401 "Unauthorized", db)
    else deleteQuestionCore req.paramId db
  | .postResponses => postResponsesCore req.name req.answers now db
  | .getResponses =>
    if !requireAdminStatic adminPassword req.authHeader then
      (.err 401 "Unauthorized", db)
    else (getResponsesCore db, db)
  | .deleteResponse => (.notFound, db)
  | .getAnalytics =>
    if !requireAdminStatic adminPassword req.authHeader then
      (.err 401 "Unauthorized", db)
    else (analyticsCore db, db)

/-- The five default question texts seeded at first boot. -/
def defaultQuestionTexts : List String :=
  ["Route 1: Red Wall", "Route 2: Blue Corner", "Route 3: Yellow Overhang",
   "Route 4: Green Slab", "Route 5: Black Crack"]

/-- The seeded `questions` table: text `i` inserted with `position = i`,
picking up `AUTOINCREMENT` ids 1..5 in a fresh database. -/
def seededQuestions : List Question :=
  defaultQuestionTexts.enum.map (fun p =>
    { id := p.1 + 1, text := p.2, position := (p.1 : Int), created_at := 0 })

/-- The database right after first boot on an empty file: schema created,
default questions seeded, no responses and no answers. -/
def initDb : Db :=
  { questions := seededQuestions
    responses := []
    answers := []
    nextQuestionId := 6
    nextResponseId := 1
    nextAnswerId := 1 }

/-- Session-variant process state right after first boot: admin hash seeded,
no active sessions. -/
def initSessionState (hash : String) : SessionState :=
  { db := initDb, adminHash := some hash, sessions := [] }

/-- One observable transition of the session-variant process: handling any
request, or the `setTimeout` expiry of a session token. -/
inductive SessionStep : SessionState → SessionState → Prop where
  | request (st : SessionState) (ep : Endpoint) (req : Request) (now : Nat)
      (freshToken : String) (passwordMatches : Bool) :
      SessionStep st (handleSession st ep req now freshToken passwordMatches).2
  | expireToken (st : SessionState) (t : String) :
      SessionStep st { st with sessions := st.sessions.erase t }

/-- Session-variant states reachable from a first boot on an empty database. -/
inductive ReachableSession : SessionState → Prop where
  | boot (hash : String) : ReachableSession (initSessionState hash)
  | step {s s' : SessionState} : ReachableSession s → SessionStep s s' →
      ReachableSession s'

/-- One observable transition of the static-secret-variant process. -/
inductive StaticStep (adminPassword : String) : Db → Db → Prop where
  | request (db : Db) (ep : Endpoint) (req : Request) (now : Nat) :
      StaticStep adminPassword db (handleStatic adminPassword db ep req now).2

/-- Static-variant databases reachable from a first boot on an empty file. -/
inductive ReachableStatic (adminPassword : String) : Db → Prop where
  | boot : ReachableStatic adminPassword initDb
  | step {d d' : Db} : ReachableStatic adminPassword d →
      StaticStep adminPassword d d' → ReachableStatic adminPassword d'

/-- The closed answer-value invariant of the `answers` table: every stored
value is an accepted token or SQL `NULL`. -/
def answersValueOk (db : Db) : Prop :=
  ∀ a ∈ db.answers, a.value = none ∨ a.value = some "topp" ∨
    a.value = some "flash"

instance (db : Db) : Decidable (answersValueOk db) := by
  unfold answersValueOk; infer_instance

/-! ### Helper lemmas about the embedded operations -/

/-- The rows appended to `answers` by the submission loop, starting from the
next free `AUTOINCREMENT` id. -/
def answerRowsFrom (rid aid : Nat) : List (Int × JVal) → List AnswerRow
  | [] => []
  | e :: es => ⟨aid, rid, e.1, safeVal e.2⟩ :: answerRowsFrom rid (aid + 1) es

theorem answerRowsFrom_length (rid aid : Nat) (es : List (Int × JVal)) :
    (answerRowsFrom rid aid es).length = es.length := by
  induction es generalizing aid with
  | nil => rfl
  | cons e es ih => simp [answerRowsFrom, ih]

theorem mem_answerRowsFrom {rid aid : Nat} {es : List (Int × JVal)}
    {a : AnswerRow} (ha : a ∈ answerRowsFrom rid aid es) :
    a.response_id = rid ∧ ∃ e ∈ es, a.question_id = e.1 ∧ a.value = safeVal e.2 := by
  induction es generalizing aid with
  | nil => simp [answerRowsFrom] at ha
  | cons e es ih =>
    simp only [answerRowsFrom, List.mem_cons] at ha
    rcases ha with rfl | ha
    · exact ⟨rfl, e, List.mem_cons_self _ _, rfl, rfl⟩
    · obtain ⟨h1, e', he', h2, h3⟩ := ih ha
      exact ⟨h1, e', List.mem_cons_of_mem _ he', h2, h3⟩

theorem answerRowsFrom_get_mem (es : List (Int × JVal)) (rid aid : Nat)
    (i : Fin es.length) :
    ∃ a ∈ answerRowsFrom rid aid es, a.response_id = rid ∧
      a.question_id = (es.get i).1 ∧ a.value = safeVal (es.get i).2 := by
  induction es generalizing aid with
  | nil => exact absurd i.isLt (by simp)
  | cons e es ih =>
    rcases i with ⟨i, hi⟩
    cases i with
    | zero =>
      exact ⟨⟨aid, rid, e.1, safeVal e.2⟩, List.mem_cons_self _ _, rfl, rfl, rfl⟩
    | succ j =>
      obtain ⟨a, ha, h1, h2, h3⟩ := ih (aid + 1) ⟨j, by simpa using hi⟩
      exact ⟨a, List.mem_cons_of_mem _ ha, h1, h2, h3⟩

theorem safeVal_ok (v : JVal) :
    safeVal v = none ∨ safeVal v = some "topp" ∨ safeVal v = some "flash" := by
  cases v with
  | str s =>
    by_cases h : s = "topp" ∨ s = "flash"
    · rcases h with h | h <;> simp [safeVal, h]
    · push_neg at h
      simp [safeVal, h.1, h.2]
  | num n => simp [safeVal]
  | bool b => simp [safeVal]
  | jnull => simp [safeVal]

theorem foldl_insertAnswer (es : List (Int × JVal)) (rid : Nat) (d : Db) :
    es.foldl (fun dd e => dbInsertAnswer rid e.1 (safeVal e.2) dd) d =
      { d with
        answers := d.answers ++ answerRowsFrom rid d.nextAnswerId es,
        nextAnswerId := d.nextAnswerId + es.length } := by
  induction es generalizing d with
  | nil => simp [answerRowsFrom]
  | cons e es ih =>
    rw [List.foldl_cons, ih]
    simp only [dbInsertAnswer, answerRowsFrom, List.append_assoc,
      List.singleton_append, List.length_cons]
    congr 1
    omega

theorem foldl_add_eq_sum (l : List JVal) (c : Int) :
    l.foldl (fun sum v => sum + answerPoints v) c = c + (l.map answerPoints).sum := by
  induction l generalizing c with
  | nil => simp
  | cons v l ih => simp [ih, add_assoc]

/-- Full characterization of a valid `POST /api/responses`. -/
theorem postResponsesCore_valid (name : String) (hname : jsTrim name ≠ "")
    (af : AnswersField) (haf : af.isObjectType = true) (now : Nat) (db : Db) :
    postResponsesCore (some name) (some af) now db =
      (.submitted db.nextResponseId ((valuesOf af).map answerPoints).sum,
       { db with
          responses := db.responses ++
            [⟨db.nextResponseId, jsTrim name, ((valuesOf af).map answerPoints).sum, now⟩],
          answers := db.answers ++
            answerRowsFrom db.nextResponseId db.nextAnswerId (entriesOf af),
          nextResponseId := db.nextResponseId + 1,
          nextAnswerId := db.nextAnswerId + (entriesOf af).length }) := by
  simp only [postResponsesCore, hname, if_false, haf, Bool.not_true, if_neg,
    dbInsertResponse]
  rw [foldl_insertAnswer, foldl_add_eq_sum]
  simp

theorem foldl_max_le_init (l : List Question) (a : Int) :
    a ≤ l.foldl (fun m x => max m x.position) a := by
  induction l generalizing a with
  | nil => simp
  | cons q l ih => exact le_trans (le_max_left _ _) (ih (max a q.position))

theorem foldl_max_mem_le (l : List Question) (a : Int) :
    ∀ x ∈ l, x.position ≤ l.foldl (fun m x => max m x.position) a := by
  induction l generalizing a with
  | nil => simp
  | cons q l ih =>
    intro x hx
    rcases List.mem_cons.mp hx with rfl | hx
    · exact le_trans (le_max_right a x.position) (foldl_max_le_init l _)
    · exact ih (max a q.position) x hx

theorem foldl_max_cases (l : List Question) (a : Int) :
    l.foldl (fun m x => max m x.position) a = a ∨
      ∃ x ∈ l, l.foldl (fun m x => max m x.position) a = x.position := by
  induction l generalizing a with
  | nil => exact Or.inl rfl
  | cons q l ih =>
    rcases ih (max a q.position) with h | ⟨x, hx, h⟩
    · rcases max_choice a q.position with hm | hm
      · exact Or.inl (by rw [List.foldl_cons, h]; exact hm)
      · exact Or.inr ⟨q, List.mem_cons_self _ _,
          by rw [List.foldl_cons, h]; exact hm⟩
    · exact Or.inr ⟨x, List.mem_cons_of_mem _ hx, by rw [List.foldl_cons, h]⟩

theorem qsMaxPos_ge (qs : List Question) : ∀ q ∈ qs, q.position ≤ qsMaxPos qs := by
  cases qs with
  | nil => simp
  | cons q qs =>
    intro x hx
    rcases List.mem_cons.mp hx with rfl | hx
    · exact foldl_max_le_init qs x.position
    · exact foldl_max_mem_le qs q.position x hx

theorem qsMaxPos_mem (qs : List Question) (h : qs ≠ []) :
    ∃ q ∈ qs, qsMaxPos qs = q.position := by
  cases qs with
  | nil => exact absurd rfl h
  | cons q qs =>
    rcases foldl_max_cases qs q.position with h0 | ⟨x, hx, h0⟩
    · exact ⟨q, List.mem_cons_self _ _, h0⟩
    · exact ⟨x, List.mem_cons_of_mem _ hx, h0⟩

theorem countP_add_le_of_disjoint (l : List AnswerRow) (p q r : AnswerRow → Bool)
    (hd : ∀ a ∈ l, ¬(p a = true ∧ q a = true))
    (hp : ∀ a ∈ l, p a = true → r a = true)
    (hq : ∀ a ∈ l, q a = true → r a = true) :
    l.countP p + l.countP q ≤ l.countP r := by
  induction l with
  | nil => simp
  | cons a l ih =>
    have hrec := ih (fun x hx => hd x (List.mem_cons_of_mem _ hx))
      (fun x hx => hp x (List.mem_cons_of_mem _ hx))
      (fun x hx => hq x (List.mem_cons_of_mem _ hx))
    have hda := hd a (List.mem_cons_self _ _)
    have hpa := hp a (List.mem_cons_self _ _)
    have hqa := hq a (List.mem_cons_self _ _)
    simp only [List.countP_cons]
    cases hP : p a <;> cases hQ : q a <;> cases hR : r a <;>
      simp_all <;> omega

theorem countP_add_eq_of_cover (l : List AnswerRow) (p q r : AnswerRow → Bool)
    (hd : ∀ a ∈ l, ¬(p a = true ∧ q a = true))
    (hp : ∀ a ∈ l, p a = true → r a = true)
    (hq : ∀ a ∈ l, q a = true → r a = true)
    (hc : ∀ a ∈ l, r a = true → p a = true ∨ q a = true) :
    l.countP p + l.countP q = l.countP r := by
  induction l with
  | nil => simp
  | cons a l ih =>
    have hrec := ih (fun x hx => hd x (List.mem_cons_of_mem _ hx))
      (fun x hx => hp x (List.mem_cons_of_mem _ hx))
      (fun x hx => hq x (List.mem_cons_of_mem _ hx))
      (fun x hx => hc x (List.mem_cons_of_mem _ hx))
    have hda := hd a (List.mem_cons_self _ _)
    have hpa := hp a (List.mem_cons_self _ _)
    have hqa := hq a (List.mem_cons_self _ _)
    have hca := hc a (List.mem_cons_self _ _)
    simp only [List.countP_cons]
    cases hP : p a <;> cases hQ : q a <;> cases hR : r a <;>
      simp_all <;> omega

/-! ### Claim theorems -/

/-- C1: for every submitted response whose `answers` field is a non-null
object (plain object or array), the computed and stored score is the sum over
the submitted answer values of 2 for `"topp"`, 3 for `"flash"` and 0 for
anything else, independent of the question keys; the returned score, the
stored response row's score, and the reply's response id all agree. -/
theorem c1_score_formula (db : Db) (name : String) (hname : jsTrim name ≠ "")
    (af : AnswersField) (haf : af.isObjectType = true) (now : Nat) :
    ∃ rid score dbAfter,
      postResponsesCore (some name) (some af) now db =
        (.submitted rid score, dbAfter) ∧
      score = ((valuesOf af).map answerPoints).sum ∧
      ∃ row ∈ dbAfter.responses,
        row.id = rid ∧ row.name = jsTrim name ∧ row.score = score := by
  refine ⟨db.nextResponseId, ((valuesOf af).map answerPoints).sum, _,
    postResponsesCore_valid name hname af haf now db, rfl,
    ⟨db.nextResponseId, jsTrim name, ((valuesOf af).map answerPoints).sum, now⟩,
    ?_, rfl, rfl, rfl⟩
  simp

/-- Witness for C1 at the spec's own example: answers
`{1:"topp", 2:"flash", 3:"bogus"}` give score `2+3+0 = 5` and the answer
stored for question 3 is `NULL`. -/
theorem c1_score_formula_witness :
    (∃ rid score dbAfter,
      postResponsesCore (some "Alice")
          (some (.obj [(1, .str "topp"), (2, .str "flash"), (3, .str "bogus")]))
          0 initDb =
        (.submitted rid score, dbAfter) ∧
      score = ((valuesOf (.obj [(1, .str "topp"), (2, .str "flash"),
        (3, .str "bogus")])).map answerPoints).sum ∧
      ∃ row ∈ dbAfter.responses,
        row.id = rid ∧ row.name = jsTrim "Alice" ∧ row.score = score) ∧
    (postResponsesCore (some "Alice")
        (some (.obj [(1, .str "topp"), (2, .str "flash"), (3, .str "bogus")]))
        0 initDb).1 = .submitted 1 5 ∧
    (∃ a ∈ (postResponsesCore (some "Alice")
        (some (.obj [(1, .str "topp"), (2, .str "flash"), (3, .str "bogus")]))
        0 initDb).2.answers, a.question_id = 3 ∧ a.value = none) :=
  ⟨c1_score_formula initDb "Alice" (by decide) _ (by decide) 0,
   by decide, by decide⟩

theorem insertBy_perm (le : α → α → Bool) (x : α) (l : List α) :
    (insertBy le x l).Perm (x :: l) := by
  induction l with
  | nil => exact List.Perm.refl _
  | cons y ys ih =>
    by_cases h : le x y
    · simp [insertBy, h]
    · simp only [insertBy, h, if_false]
      exact ((ih.cons y).trans (List.Perm.swap x y ys))

theorem sortBy_perm (le : α → α → Bool) (l : List α) :
    (sortBy le l).Perm l := by
  induction l with
  | nil => exact List.Perm.refl _
  | cons x xs ih => exact (insertBy_perm le x (sortBy le xs)).trans (ih.cons x)

theorem insertBy_pairwise (le : α → α → Bool)
    (htrans : ∀ a b c, le a b = true → le b c = true → le a c = true)
    (htot : ∀ a b, le a b = true ∨ le b a = true) (x : α) (l : List α)
    (hl : l.Pairwise (fun a b => le a b = true)) :
    (insertBy le x l).Pairwise (fun a b => le a b = true) := by
  induction l with
  | nil => simp [insertBy]
  | cons y ys ih =>
    rcases List.pairwise_cons.mp hl with ⟨hy, hys⟩
    by_cases h : le x y
    · simp only [insertBy, h, if_true]
      exact List.pairwise_cons.mpr ⟨by
        intro z hz
        rcases List.mem_cons.mp hz with rfl | hz
        · exact h
        · exact htrans x y z h (hy z hz), hl⟩
    · simp only [insertBy, h, if_false]
      refine List.pairwise_cons.mpr ⟨?_, ih hys⟩
      intro z hz
      rcases List.mem_cons.mp ((insertBy_perm le x ys).mem_iff.mp hz) with rfl | hz
      · rcases htot z y with hzy | hyz
        · exact absurd hzy h
        · exact hyz
      · exact hy z hz

theorem sortBy_pairwise (le : α → α → Bool)
    (htrans : ∀ a b c, le a b = true → le b c = true → le a c = true)
    (htot : ∀ a b, le a b = true ∨ le b a = true) (l : List α) :
    (sortBy le l).Pairwise (fun a b => le a b = true) := by
  induction l with
  | nil => simp [sortBy]
  | cons x xs ih => exact insertBy_pairwise le htrans htot x (sortBy le xs) ih

theorem scoreDescLe_trans (a b c : ResponseRow) :
    scoreDescLe a b = true → scoreDescLe b c = true → scoreDescLe a c = true := by
  simp only [scoreDescLe, decide_eq_true_eq]
  omega

theorem scoreDescLe_total (a b : ResponseRow) :
    scoreDescLe a b = true ∨ scoreDescLe b a = true := by
  simp only [scoreDescLe, decide_eq_true_eq]
  omega

/-- C7: a submission with a missing or whitespace-only name, or a missing or
non-object answers field, is answered with status 400 and an error body and
stores nothing; a submission passing both checks creates exactly one response
row plus one answer row per submitted entry, leaving questions untouched. -/
theorem c7_submit_validation (name? : Option String)
    (answers? : Option AnswersField) (now : Nat) (db : Db) :
    ((name? = none ∨ (∃ n, name? = some n ∧ jsTrim n = "") ∨ answers? = none ∨
        (∃ af, answers? = some af ∧ af.isObjectType = false)) →
      ∃ msg, postResponsesCore name? answers? now db = (.err 400 msg, db)) ∧
    (∀ n af, name? = some n → jsTrim n ≠ "" → answers? = some af →
        af.isObjectType = true →
      ∃ rid score dbAfter,
        postResponsesCore name? answers? now db =
          (.submitted rid score, dbAfter) ∧
        dbAfter.responses.length = db.responses.length + 1 ∧
        dbAfter.answers.length = db.answers.length + (entriesOf af).length ∧
        dbAfter.questions = db.questions) := by
  constructor
  · intro h
    rcases name? with _ | n
    · exact ⟨"name is required", by simp [postResponsesCore]⟩
    · by_cases hn : jsTrim n = ""
      · exact ⟨"name is required", by simp [postResponsesCore, hn]⟩
      · rcases answers? with _ | af
        · exact ⟨"answers is required", by simp [postResponsesCore, hn]⟩
        · have haf : af.isObjectType = false := by
            rcases h with h | ⟨m, hm, hm2⟩ | h | ⟨af2, haf2, h2⟩
            · exact absurd h (by simp)
            · exact absurd hm2 (by rw [Option.some.injEq] at hm; rw [← hm]; exact hn)
            · exact absurd h (by simp)
            · rw [Option.some.injEq] at haf2; rw [haf2]; exact h2
          exact ⟨"answers is required", by simp [postResponsesCore, hn, haf]⟩
  · intro n af hn htrim haf hafo
    subst hn
    subst haf
    refine ⟨db.nextResponseId, ((valuesOf af).map answerPoints).sum, _,
      postResponsesCore_valid n htrim af hafo now db, ?_, ?_, rfl⟩
    · simp
    · simp [answerRowsFrom_length]

/-- Witness for C7: a missing name is rejected with 400 leaving the database
untouched, and a valid one-answer submission adds one response row and one
answer row. -/
theorem c7_submit_validation_witness :
    (∃ msg, postResponsesCore none (some (.obj [])) 0 initDb =
      (.err 400 msg, initDb)) ∧
    (∃ rid score dbAfter,
      postResponsesCore (some "Bo") (some (.obj [(1, .str "topp")])) 0 initDb =
        (.submitted rid score, dbAfter) ∧
      dbAfter.responses.length = initDb.responses.length + 1 ∧
      dbAfter.answers.length =
        initDb.answers.length + (entriesOf (.obj [(1, .str "topp")])).length ∧
      dbAfter.questions = initDb.questions) :=
  ⟨(c7_submit_validation none (some (.obj [])) 0 initDb).1 (Or.inl rfl),
   (c7_submit_validation (some "Bo") (some (.obj [(1, .str "topp")])) 0
      initDb).2 "Bo" _ rfl (by decide) rfl rfl⟩

/-- C10 (implicit): a submission whose answers field is a JSON array passes
validation (an array is of object type and truthy, `[]` included); the score
is computed over the array's elements, one answer row is created per index
with the index as question id, and `[]` yields score 0 and no answer rows. -/
theorem c10_array_answers (db : Db) (name : String) (hname : jsTrim name ≠ "")
    (vs : List JVal) (now : Nat) :
    ∃ rid score dbAfter,
      postResponsesCore (some name) (some (.arr vs)) now db =
        (.submitted rid score, dbAfter) ∧
      score = (vs.map answerPoints).sum ∧
      dbAfter.responses.length = db.responses.length + 1 ∧
      dbAfter.answers.length = db.answers.length + vs.length ∧
      (∀ i : Fin vs.length, ∃ a ∈ dbAfter.answers, a.response_id = rid ∧
        a.question_id = ((i : Nat) : Int) ∧ a.value = safeVal (vs.get i)) ∧
      (vs = [] → score = 0 ∧ dbAfter.answers = db.answers) := by
  refine ⟨db.nextResponseId, ((valuesOf (.arr vs)).map answerPoints).sum, _,
    postResponsesCore_valid name hname (.arr vs) rfl now db, rfl, by simp,
    ?_, ?_, ?_⟩
  · simp [answerRowsFrom_length, entriesOf]
  · intro i
    have hlen : (entriesOf (.arr vs)).length = vs.length := by
      simp [entriesOf]
    obtain ⟨a, ha, h1, h2, h3⟩ := answerRowsFrom_get_mem (entriesOf (.arr vs))
      db.nextResponseId db.nextAnswerId (Fin.cast hlen.symm i)
    have hget : (entriesOf (.arr vs)).get (Fin.cast hlen.symm i) =
        (((i : Nat) : Int), vs.get i) := by
      simp [entriesOf, List.get_eq_getElem]
    refine ⟨a, ?_, h1, ?_, ?_⟩
    · simp only [List.mem_append]
      exact Or.inr ha
    · rw [h2, hget]
    · rw [h3, hget]
  · intro hvs
    subst hvs
    exact ⟨rfl, by simp [entriesOf, answerRowsFrom]⟩

/-- Witness for C10: the empty array `[]` passes validation and produces a
response with score 0 and no answer rows, and a two-element array produces
index-keyed answers. -/
theorem c10_array_answers_witness :
    (∃ rid score dbAfter,
      postResponsesCore (some "Cy") (some (.arr [])) 0 initDb =
        (.submitted rid score, dbAfter) ∧
      score = (([] : List JVal).map answerPoints).sum ∧
      dbAfter.responses.length = initDb.responses.length + 1 ∧
      dbAfter.answers.length = initDb.answers.length + ([] : List JVal).length ∧
      (∀ i : Fin ([] : List JVal).length, ∃ a ∈ dbAfter.answers,
        a.response_id = rid ∧ a.question_id = ((i : Nat) : Int) ∧
        a.value = safeVal (([] : List JVal).get i)) ∧
      (([] : List JVal) = [] → score = 0 ∧ dbAfter.answers = initDb.answers)) ∧
    (∃ rid score dbAfter,
      postResponsesCore (some "Dy") (some (.arr [.str "flash", .str "nope"]))
          0 initDb = (.submitted rid score, dbAfter) ∧
      score = ([JVal.str "flash", JVal.str "nope"].map answerPoints).sum ∧
      dbAfter.responses.length = initDb.responses.length + 1 ∧
      dbAfter.answers.length =
        initDb.answers.length + [JVal.str "flash", JVal.str "nope"].length ∧
      (∀ i : Fin [JVal.str "flash", JVal.str "nope"].length,
        ∃ a ∈ dbAfter.answers, a.response_id = rid ∧
        a.question_id = ((i : Nat) : Int) ∧
        a.value = safeVal ([JVal.str "flash", JVal.str "nope"].get i)) ∧
      ([JVal.str "flash", JVal.str "nope"] = [] → score = 0 ∧
        dbAfter.answers = initDb.answers)) :=
  ⟨c10_array_answers initDb "Cy" (by decide) [] 0,
   c10_array_answers initDb "Dy" (by decide) [.str "flash", .str "nope"] 0⟩

/-- Characterization of a valid `POST /api/questions` body: the reply echoes
the trimmed text and a position that is strictly above every existing
position, is some existing position plus one when the table is non-empty, and
is 1 when it is empty; the new row is stored and no other table changes. -/
theorem postQuestionsCore_spec (t : String) (ht : jsTrim t ≠ "") (now : Nat)
    (db : Db) :
    ∃ id pos db2,
      postQuestionsCore (some t) now db =
        (.createdQuestion id (jsTrim t) pos, db2) ∧
      (⟨id, jsTrim t, pos, now⟩ : Question) ∈ db2.questions ∧
      db2.responses = db.responses ∧ db2.answers = db.answers ∧
      (db.questions = [] → pos = 1) ∧
      (∀ q ∈ db.questions, q.position + 1 ≤ pos) ∧
      (db.questions ≠ [] → ∃ q ∈ db.questions, pos = q.position + 1) := by
  have heq : postQuestionsCore (some t) now db =
      (.createdQuestion db.nextQuestionId (jsTrim t)
        (qsMaxPos db.questions + 1),
       { db with
          questions := db.questions ++
            [⟨db.nextQuestionId, jsTrim t, qsMaxPos db.questions + 1, now⟩],
          nextQuestionId := db.nextQuestionId + 1 }) := by
    simp [postQuestionsCore, ht, dbInsertQuestion]
  refine ⟨db.nextQuestionId, qsMaxPos db.questions + 1, _, heq, by simp,
    rfl, rfl, ?_, ?_, ?_⟩
  · intro h
    rw [h]
    rfl
  · intro q hq
    have := qsMaxPos_ge db.questions q hq
    omega
  · intro h
    obtain ⟨q, hq, hmax⟩ := qsMaxPos_mem db.questions h
    exact ⟨q, hq, by rw [hmax]⟩

/-- C3: in both variants, an authorized question creation with non-empty
trimmed text stores and returns position `1 + (max existing position, or 0 if
none)`: the position is 1 on an empty table, exceeds every existing position,
and equals some existing position plus one otherwise. -/
theorem c3_question_position (req : Request) (t : String) (now : Nat)
    (htext : req.text = some t) (ht : jsTrim t ≠ "") :
    (∀ (st : SessionState) (fresh : String) (pwOk : Bool),
      requireAdminSession st.sessions req.authHeader = true →
      ∃ id pos db2,
        handleSession st .postQuestions req now fresh pwOk =
          (.createdQuestion id (jsTrim t) pos, { st with db := db2 }) ∧
        (⟨id, jsTrim t, pos, now⟩ : Question) ∈ db2.questions ∧
        (st.db.questions = [] → pos = 1) ∧
        (∀ q ∈ st.db.questions, q.position + 1 ≤ pos) ∧
        (st.db.questions ≠ [] →
          ∃ q ∈ st.db.questions, pos = q.position + 1)) ∧
    (∀ (pw : String) (db : Db),
      requireAdminStatic pw req.authHeader = true →
      ∃ id pos db2,
        handleStatic pw db .postQuestions req now =
          (.createdQuestion id (jsTrim t) pos, db2) ∧
        (⟨id, jsTrim t, pos, now⟩ : Question) ∈ db2.questions ∧
        (db.questions = [] → pos = 1) ∧
        (∀ q ∈ db.questions, q.position + 1 ≤ pos) ∧
        (db.questions ≠ [] → ∃ q ∈ db.questions, pos = q.position + 1)) := by
  constructor
  · intro st fresh pwOk hauth
    obtain ⟨id, pos, db2, heq, hmem, _, _, h1, h2, h3⟩ :=
      postQuestionsCore_spec t ht now st.db
    refine ⟨id, pos, db2, ?_, hmem, h1, h2, h3⟩
    simp only [handleSession, hauth, Bool.not_true, Bool.false_eq_true,
      if_false, htext, heq]
  · intro pw db hauth
    obtain ⟨id, pos, db2, heq, hmem, _, _, h1, h2, h3⟩ :=
      postQuestionsCore_spec t ht now db
    refine ⟨id, pos, db2, ?_, hmem, h1, h2, h3⟩
    simp only [handleStatic, hauth, Bool.not_true, Bool.false_eq_true,
      if_false, htext, heq]

/-- Witness for C3 in both variants at concrete states: session variant with
an active token, static variant with the configured password. -/
theorem c3_question_position_witness :
    (∃ id pos db2,
      handleSession ⟨initDb, some "h", ["tok"]⟩ .postQuestions
          { authHeader := some "Bearer tok", text := some "New Route" } 7 "f"
          true =
        (.createdQuestion id (jsTrim "New Route") pos,
         { (⟨initDb, some "h", ["tok"]⟩ : SessionState) with db := db2 }) ∧
      (⟨id, jsTrim "New Route", pos, 7⟩ : Question) ∈ db2.questions ∧
      (initDb.questions = [] → pos = 1) ∧
      (∀ q ∈ initDb.questions, q.position + 1 ≤ pos) ∧
      (initDb.questions ≠ [] →
        ∃ q ∈ initDb.questions, pos = q.position + 1)) ∧
    (∃ id pos db2,
      handleStatic "admin123" initDb .postQuestions
          { authHeader := some "Bearer admin123", text := some "New Route" }
          7 =
        (.createdQuestion id (jsTrim "New Route") pos, db2) ∧
      (⟨id, jsTrim "New Route", pos, 7⟩ : Question) ∈ db2.questions ∧
      (initDb.questions = [] → pos = 1) ∧
      (∀ q ∈ initDb.questions, q.position + 1 ≤ pos) ∧
      (initDb.questions ≠ [] →
        ∃ q ∈ initDb.questions, pos = q.position + 1)) :=
  ⟨(c3_question_position
      { authHeader := some "Bearer tok", text := some "New Route" }
      "New Route" 7 rfl (by decide)).1 ⟨initDb, some "h", ["tok"]⟩ "f" true
      (by decide),
   (c3_question_position
      { authHeader := some "Bearer admin123", text := some "New Route" }
      "New Route" 7 rfl (by decide)).2 "admin123" initDb (by decide)⟩

/-- A small concrete database used by witnesses: one question, two responses,
two answer rows (one of them referencing the question, one `NULL`). -/
def sampleDb : Db :=
  { questions := [⟨1, "Q1", 0, 0⟩]
    responses := [⟨1, "Ann", 5, 3⟩, ⟨2, "Ben", 2, 4⟩]
    answers := [⟨1, 1, 1, some "topp"⟩, ⟨2, 2, 1, none⟩]
    nextQuestionId := 2
    nextResponseId := 3
    nextAnswerId := 3 }

/-- C5: an authorized `DELETE /api/responses/:id` replies `{ok:true}`; in the
resulting state no answer row of that response and no response row with that
id remain, every other answer and response row survives, and questions, the
admin credential and the session set are untouched. -/
theorem c5_delete_response (st : SessionState) (req : Request) (now : Nat)
    (fresh : String) (pwOk : Bool)
    (hauth : requireAdminSession st.sessions req.authHeader = true) :
    ∃ st', handleSession st .deleteResponse req now fresh pwOk =
        (.okTrue, st') ∧
      (∀ a ∈ st'.db.answers, a.response_id ≠ req.paramId) ∧
      (∀ r ∈ st'.db.responses, r.id ≠ req.paramId) ∧
      (∀ a ∈ st.db.answers, a.response_id ≠ req.paramId →
        a ∈ st'.db.answers) ∧
      (∀ a ∈ st'.db.answers, a ∈ st.db.answers) ∧
      (∀ r ∈ st.db.responses, r.id ≠ req.paramId → r ∈ st'.db.responses) ∧
      (∀ r ∈ st'.db.responses, r ∈ st.db.responses) ∧
      st'.db.questions = st.db.questions ∧
      st'.adminHash = st.adminHash ∧ st'.sessions = st.sessions := by
  refine ⟨{ st with db := dbDeleteResponseCascade req.paramId st.db },
    ?_, ?_, ?_, ?_, ?_, ?_, ?_, rfl, rfl, rfl⟩
  · simp only [handleSession, hauth, Bool.not_true, Bool.false_eq_true,
      if_false, deleteResponseCore]
  · intro a ha
    simp only [dbDeleteResponseCascade, List.mem_filter,
      decide_eq_true_eq] at ha
    exact ha.2
  · intro r hr
    simp only [dbDeleteResponseCascade, List.mem_filter,
      decide_eq_true_eq] at hr
    exact hr.2
  · intro a ha hne
    simp only [dbDeleteResponseCascade, List.mem_filter, decide_eq_true_eq]
    exact ⟨ha, hne⟩
  · intro a ha
    simp only [dbDeleteResponseCascade, List.mem_filter,
      decide_eq_true_eq] at ha
    exact ha.1
  · intro r hr hne
    simp only [dbDeleteResponseCascade, List.mem_filter, decide_eq_true_eq]
    exact ⟨hr, hne⟩
  · intro r hr
    simp only [dbDeleteResponseCascade, List.mem_filter,
      decide_eq_true_eq] at hr
    exact hr.1

/-- Witness for C5: deleting response 1 from the sample state removes its
answer row and its response row and keeps everything else. -/
theorem c5_delete_response_witness :
    ∃ st', handleSession ⟨sampleDb, some "h", ["tok"]⟩ .deleteResponse
        { authHeader := some "Bearer tok", paramId := 1 } 9 "f" true =
        (.okTrue, st') ∧
      (∀ a ∈ st'.db.answers, a.response_id ≠ 1) ∧
      (∀ r ∈ st'.db.responses, r.id ≠ 1) ∧
      (∀ a ∈ sampleDb.answers, a.response_id ≠ 1 → a ∈ st'.db.answers) ∧
      (∀ a ∈ st'.db.answers, a ∈ sampleDb.answers) ∧
      (∀ r ∈ sampleDb.responses, r.id ≠ 1 → r ∈ st'.db.responses) ∧
      (∀ r ∈ st'.db.responses, r ∈ sampleDb.responses) ∧
      st'.db.questions = sampleDb.questions ∧
      st'.adminHash = some "h" ∧ st'.sessions = ["tok"] :=
  c5_delete_response ⟨sampleDb, some "h", ["tok"]⟩
    { authHeader := some "Bearer tok", paramId := 1 } 9 "f" true (by decide)

theorem map_update_noop (id : Nat) (text : String) (l : List Question)
    (h : ∀ q ∈ l, q.id ≠ id) :
    l.map (fun q => if q.id = id then { q with text := text } else q) = l := by
  induction l with
  | nil => rfl
  | cons q qs ih =>
    have hq := h q (List.mem_cons_self _ _)
    simp only [List.map_cons, if_neg hq,
      ih (fun x hx => h x (List.mem_cons_of_mem _ hx))]

/-- C6: an authorized `DELETE /api/questions/:id` always replies `{ok:true}`,
leaves every answer row (orphans included) and every response untouched,
removes any question with that id, and is a complete no-op when no such
question exists; an authorized `PUT /api/questions/:id` with valid text on a
nonexistent id silently replies `{ok:true}` and changes nothing. -/
theorem c6_question_delete_update (st : SessionState) (req : Request)
    (now : Nat) (fresh : String) (pwOk : Bool)
    (hauth : requireAdminSession st.sessions req.authHeader = true) :
    (∃ st', handleSession st .deleteQuestion req now fresh pwOk =
        (.okTrue, st') ∧
      st'.db.answers = st.db.answers ∧
      st'.db.responses = st.db.responses ∧
      (∀ q ∈ st'.db.questions, q.id ≠ req.paramId) ∧
      ((∀ q ∈ st.db.questions, q.id ≠ req.paramId) → st' = st)) ∧
    (∀ t, req.text = some t → jsTrim t ≠ "" →
      (∀ q ∈ st.db.questions, q.id ≠ req.paramId) →
      handleSession st .putQuestion req now fresh pwOk = (.okTrue, st)) := by
  constructor
  · refine ⟨{ st with db := dbDeleteQuestion req.paramId st.db },
      ?_, rfl, rfl, ?_, ?_⟩
    · simp only [handleSession, hauth, Bool.not_true, Bool.false_eq_true,
        if_false, deleteQuestionCore]
    · intro q hq
      simp only [dbDeleteQuestion, List.mem_filter, decide_eq_true_eq] at hq
      exact hq.2
    · intro h
      have hf : st.db.questions.filter (fun q => q.id ≠ req.paramId) =
          st.db.questions :=
        List.filter_eq_self.mpr (fun a ha => decide_eq_true (h a ha))
      show ({ st with db := { st.db with
        questions := st.db.questions.filter (fun q => q.id ≠ req.paramId) } }
          : SessionState) = st
      rw [hf]
  · intro t htext htrim h
    have hmap : st.db.questions.map (fun q =>
        if q.id = req.paramId then { q with text := jsTrim t } else q) =
          st.db.questions :=
      map_update_noop req.paramId (jsTrim t) st.db.questions h
    simp only [handleSession, hauth, Bool.not_true, Bool.false_eq_true,
      if_false, htext, putQuestionCore, htrim, if_neg htrim,
      dbUpdateQuestionText, hmap]

/-- Witness for C6: deleting question 1 of the sample state (which is
referenced by answer rows) succeeds and keeps both answer rows; deleting and
updating the nonexistent question 99 are silent no-ops. -/
theorem c6_question_delete_update_witness :
    (∃ st', handleSession ⟨sampleDb, some "h", ["tok"]⟩ .deleteQuestion
        { authHeader := some "Bearer tok", paramId := 1 } 9 "f" true =
        (.okTrue, st') ∧
      st'.db.answers = sampleDb.answers ∧
      st'.db.responses = sampleDb.responses ∧
      (∀ q ∈ st'.db.questions, q.id ≠ 1) ∧
      ((∀ q ∈ sampleDb.questions, q.id ≠ 1) →
        st' = ⟨sampleDb, some "h", ["tok"]⟩)) ∧
    handleSession ⟨sampleDb, some "h", ["tok"]⟩ .putQuestion
        { authHeader := some "Bearer tok", text := some "T2", paramId := 99 }
        9 "f" true = (.okTrue, ⟨sampleDb, some "h", ["tok"]⟩) :=
  ⟨(c6_question_delete_update ⟨sampleDb, some "h", ["tok"]⟩
      { authHeader := some "Bearer tok", paramId := 1 } 9 "f" true
      (by decide)).1,
   (c6_question_delete_update ⟨sampleDb, some "h", ["tok"]⟩
      { authHeader := some "Bearer tok", text := some "T2", paramId := 99 }
      9 "f" true (by decide)).2 "T2" rfl (by decide) (by decide)⟩

/-- C9: `GET /api/leaderboard` returns at most 5 entries, ordered by score
descending, each a stored response's name and score; the entries are the
projection of a subset `kept` of the responses such that every omitted
response scores no higher than any kept one, and entries are only omitted
when 5 are already returned. -/
theorem c9_leaderboard (st : SessionState) (req : Request) (now : Nat)
    (fresh : String) (pwOk : Bool) :
    ∃ rows, handleSession st .getLeaderboard req now fresh pwOk =
        (.leaderboardList rows, st) ∧
      rows.length ≤ 5 ∧
      rows.Pairwise (fun x y => y.2 ≤ x.2) ∧
      (∀ e ∈ rows, ∃ r ∈ st.db.responses, e = (r.name, r.score)) ∧
      ∃ kept dropped : List ResponseRow,
        (kept ++ dropped).Perm st.db.responses ∧
        rows = kept.map (fun r => (r.name, r.score)) ∧
        (dropped ≠ [] → kept.length = 5) ∧
        (∀ k ∈ kept, ∀ d ∈ dropped, d.score ≤ k.score) := by
  have hsorted : (sortBy scoreDescLe st.db.responses).Pairwise
      (fun a b => scoreDescLe a b = true) :=
    sortBy_pairwise scoreDescLe scoreDescLe_trans
      (fun a b => scoreDescLe_total a b) st.db.responses
  have hperm : (sortBy scoreDescLe st.db.responses).Perm st.db.responses :=
    sortBy_perm scoreDescLe st.db.responses
  refine ⟨leaderboardRows st.db, rfl, ?_, ?_, ?_, ?_⟩
  · simp only [leaderboardRows]
    exact List.length_take_le _ _
  · have hmap : ((sortBy scoreDescLe st.db.responses).map
        (fun r => (r.name, r.score))).Pairwise
          (fun x y => y.2 ≤ x.2) := by
      rw [List.pairwise_map]
      exact hsorted.imp (fun hab => by
        simpa [scoreDescLe, decide_eq_true_eq] using hab)
    exact hmap.sublist (List.take_sublist _ _)
  · intro e he
    have he2 : e ∈ (sortBy scoreDescLe st.db.responses).map
        (fun r => (r.name, r.score)) :=
      (List.take_sublist _ _).mem he
    obtain ⟨r, hr, rfl⟩ := List.mem_map.mp he2
    exact ⟨r, hperm.mem_iff.mp hr, rfl⟩
  · refine ⟨(sortBy scoreDescLe st.db.responses).take 5,
      (sortBy scoreDescLe st.db.responses).drop 5, ?_, ?_, ?_, ?_⟩
    · rw [List.take_append_drop]
      exact hperm
    · simp only [leaderboardRows, List.map_take]
    · intro hne
      have h1 : (List.take 5 (sortBy scoreDescLe st.db.responses)).length +
          (List.drop 5 (sortBy scoreDescLe st.db.responses)).length =
          (sortBy scoreDescLe st.db.responses).length := by
        rw [← List.length_append, List.take_append_drop]
      have h2 : 5 < (sortBy scoreDescLe st.db.responses).length := by
        simpa [List.length_eq_zero] using hne
      have h3 := List.length_take_le 5 (sortBy scoreDescLe st.db.responses)
      have h4 := List.length_drop 5 (sortBy scoreDescLe st.db.responses)
      omega
    · have hsp := List.pairwise_append.mp
        (show List.Pairwise (fun a b => scoreDescLe a b = true)
            ((sortBy scoreDescLe st.db.responses).take 5 ++
             (sortBy scoreDescLe st.db.responses).drop 5) by
          rw [List.take_append_drop]
          exact hsorted)
      intro k hk d hd
      have hkd := hsp.2.2 k hk d hd
      simpa [scoreDescLe, decide_eq_true_eq] using hkd

/-- A six-response database used by the C9 witness. -/
def sixRespDb : Db :=
  { questions := []
    responses := [⟨1, "a", 3, 1⟩, ⟨2, "b", 9, 2⟩, ⟨3, "c", 1, 3⟩,
      ⟨4, "d", 7, 4⟩, ⟨5, "e", 5, 5⟩, ⟨6, "f", 8, 6⟩]
    answers := []
    nextQuestionId := 1
    nextResponseId := 7
    nextAnswerId := 1 }

/-- Witness for C9 on a six-response state: at most 5 entries come back,
sorted descending, with the omitted response scoring lowest. -/
theorem c9_leaderboard_witness :
    ∃ rows, handleSession ⟨sixRespDb, none, []⟩ .getLeaderboard {} 0 "f"
        false = (.leaderboardList rows, ⟨sixRespDb, none, []⟩) ∧
      rows.length ≤ 5 ∧
      rows.Pairwise (fun x y => y.2 ≤ x.2) ∧
      (∀ e ∈ rows, ∃ r ∈ sixRespDb.responses, e = (r.name, r.score)) ∧
      ∃ kept dropped : List ResponseRow,
        (kept ++ dropped).Perm sixRespDb.responses ∧
        rows = kept.map (fun r => (r.name, r.score)) ∧
        (dropped ≠ [] → kept.length = 5) ∧
        (∀ k ∈ kept, ∀ d ∈ dropped, d.score ≤ k.score) :=
  c9_leaderboard ⟨sixRespDb, none, []⟩ {} 0 "f" false

/-- Per-row specification of the analytics statistics: counts match the three
`COUNT(*)` queries, `yes + no ≤ total` always, with equality under the closed
answer-value invariant, and each row stems from a stored question. -/
theorem analyticsStats_spec (db : Db) (s : QuestionStats)
    (hs : s ∈ analyticsStats db) :
    s.yes = db.answers.countP
      (fun a => decide (a.question_id = (s.id : Int) ∧
        a.value = some "topp")) ∧
    s.no = db.answers.countP
      (fun a => decide (a.question_id = (s.id : Int) ∧
        a.value = some "flash")) ∧
    s.total = db.answers.countP
      (fun a => decide (a.question_id = (s.id : Int) ∧ a.value ≠ none)) ∧
    s.yes + s.no ≤ s.total ∧
    (answersValueOk db → s.yes + s.no = s.total) ∧
    ∃ q ∈ db.questions, s.id = q.id ∧ s.text = q.text := by
  obtain ⟨q, hq, rfl⟩ := List.mem_map.mp hs
  have hqmem : q ∈ db.questions :=
    (sortBy_perm posAscLe db.questions).mem_iff.mp hq
  refine ⟨?_, ?_, ?_, ?_, ?_, q, hqmem, rfl, rfl⟩
  · exact List.countP_congr (fun a _ => by simp)
  · exact List.countP_congr (fun a _ => by simp)
  · exact List.countP_congr (fun a _ => by
      simp [Option.isSome_iff_ne_none])
  · refine countP_add_le_of_disjoint db.answers _ _ _ ?_ ?_ ?_
    · intro a _ ⟨h1, h2⟩
      simp only [Bool.and_eq_true, beq_iff_eq] at h1 h2
      rw [h1.2] at h2
      exact absurd h2.2 (by simp)
    · intro a _ h1
      simp only [Bool.and_eq_true, beq_iff_eq] at h1 ⊢
      exact ⟨h1.1, by rw [h1.2]; rfl⟩
    · intro a _ h1
      simp only [Bool.and_eq_true, beq_iff_eq] at h1 ⊢
      exact ⟨h1.1, by rw [h1.2]; rfl⟩
  · intro hok
    refine countP_add_eq_of_cover db.answers _ _ _ ?_ ?_ ?_ ?_
    · intro a _ ⟨h1, h2⟩
      simp only [Bool.and_eq_true, beq_iff_eq] at h1 h2
      rw [h1.2] at h2
      exact absurd h2.2 (by simp)
    · intro a _ h1
      simp only [Bool.and_eq_true, beq_iff_eq] at h1 ⊢
      exact ⟨h1.1, by rw [h1.2]; rfl⟩
    · intro a _ h1
      simp only [Bool.and_eq_true, beq_iff_eq] at h1 ⊢
      exact ⟨h1.1, by rw [h1.2]; rfl⟩
    · intro a ha h1
      simp only [Bool.and_eq_true, beq_iff_eq] at h1 ⊢
      rcases hok a ha with hv | hv | hv
      · rw [hv] at h1
        exact absurd h1.2 (by simp)
      · exact Or.inl ⟨h1.1, by rw [hv]⟩
      · exact Or.inr ⟨h1.1, by rw [hv]⟩

/-- C8: in both variants, an authorized `GET /api/analytics` reports, per
stored question, `yes` = count of its `"topp"` answers, `no` = count of its
`"flash"` answers, `total` = count of its non-null answers, with
`yes + no ≤ total` and equality under the closed answer-value invariant,
plus the grand total count of responses. -/
theorem c8_analytics (st : SessionState) (pw : String) (db : Db)
    (req : Request) (now : Nat) (fresh : String) (pwOk : Bool)
    (hsess : requireAdminSession st.sessions req.authHeader = true)
    (hstat : requireAdminStatic pw req.authHeader = true) :
    handleSession st .getAnalytics req now fresh pwOk =
      (.analyticsReport (analyticsStats st.db) st.db.responses.length, st) ∧
    handleStatic pw db .getAnalytics req now =
      (.analyticsReport (analyticsStats db) db.responses.length, db) ∧
    (∀ q ∈ st.db.questions,
      ∃ s ∈ analyticsStats st.db, s.id = q.id ∧ s.text = q.text) ∧
    (∀ q ∈ db.questions,
      ∃ s ∈ analyticsStats db, s.id = q.id ∧ s.text = q.text) ∧
    (∀ s ∈ analyticsStats st.db,
      s.yes = st.db.answers.countP
        (fun a => decide (a.question_id = (s.id : Int) ∧
          a.value = some "topp")) ∧
      s.no = st.db.answers.countP
        (fun a => decide (a.question_id = (s.id : Int) ∧
          a.value = some "flash")) ∧
      s.total = st.db.answers.countP
        (fun a => decide (a.question_id = (s.id : Int) ∧ a.value ≠ none)) ∧
      s.yes + s.no ≤ s.total ∧
      (answersValueOk st.db → s.yes + s.no = s.total) ∧
      ∃ q ∈ st.db.questions, s.id = q.id ∧ s.text = q.text) ∧
    (∀ s ∈ analyticsStats db,
      s.yes = db.answers.countP
        (fun a => decide (a.question_id = (s.id : Int) ∧
          a.value = some "topp")) ∧
      s.no = db.answers.countP
        (fun a => decide (a.question_id = (s.id : Int) ∧
          a.value = some "flash")) ∧
      s.total = db.answers.countP
        (fun a => decide (a.question_id = (s.id : Int) ∧ a.value ≠ none)) ∧
      s.yes + s.no ≤ s.total ∧
      (answersValueOk db → s.yes + s.no = s.total) ∧
      ∃ q ∈ db.questions, s.id = q.id ∧ s.text = q.text) := by
  refine ⟨?_, ?_, ?_, ?_, fun s hs => analyticsStats_spec st.db s hs,
    fun s hs => analyticsStats_spec db s hs⟩
  · simp only [handleSession, hsess, Bool.not_true, Bool.false_eq_true,
      if_false, analyticsCore]
  · simp only [handleStatic, hstat, Bool.not_true, Bool.false_eq_true,
      if_false, analyticsCore]
  · intro q hq
    exact ⟨_, List.mem_map.mpr
      ⟨q, (sortBy_perm posAscLe st.db.questions).mem_iff.mpr hq, rfl⟩,
      rfl, rfl⟩
  · intro q hq
    exact ⟨_, List.mem_map.mpr
      ⟨q, (sortBy_perm posAscLe db.questions).mem_iff.mpr hq, rfl⟩,
      rfl, rfl⟩

/-- Witness for C8 on the sample database with a credential that is valid in
both variants at once. -/
theorem c8_analytics_witness :
    handleSession ⟨sampleDb, some "h", ["admin123"]⟩ .getAnalytics
        { authHeader := some "Bearer admin123" } 0 "f" true =
      (.analyticsReport (analyticsStats sampleDb)
        sampleDb.responses.length, ⟨sampleDb, some "h", ["admin123"]⟩) ∧
    handleStatic "admin123" sampleDb .getAnalytics
        { authHeader := some "Bearer admin123" } 0 =
      (.analyticsReport (analyticsStats sampleDb)
        sampleDb.responses.length, sampleDb) ∧
    (∀ q ∈ sampleDb.questions,
      ∃ s ∈ analyticsStats sampleDb, s.id = q.id ∧ s.text = q.text) ∧
    (∀ q ∈ sampleDb.questions,
      ∃ s ∈ analyticsStats sampleDb, s.id = q.id ∧ s.text = q.text) ∧
    (∀ s ∈ analyticsStats sampleDb,
      s.yes = sampleDb.answers.countP
        (fun a => decide (a.question_id = (s.id : Int) ∧
          a.value = some "topp")) ∧
      s.no = sampleDb.answers.countP
        (fun a => decide (a.question_id = (s.id : Int) ∧
          a.value = some "flash")) ∧
      s.total = sampleDb.answers.countP
        (fun a => decide (a.question_id = (s.id : Int) ∧ a.value ≠ none)) ∧
      s.yes + s.no ≤ s.total ∧
      (answersValueOk sampleDb → s.yes + s.no = s.total) ∧
      ∃ q ∈ sampleDb.questions, s.id = q.id ∧ s.text = q.text) ∧
    (∀ s ∈ analyticsStats sampleDb,
      s.yes = sampleDb.answers.countP
        (fun a => decide (a.question_id = (s.id : Int) ∧
          a.value = some "topp")) ∧
      s.no = sampleDb.answers.countP
        (fun a => decide (a.question_id = (s.id : Int) ∧
          a.value = some "flash")) ∧
      s.total = sampleDb.answers.countP
        (fun a => decide (a.question_id = (s.id : Int) ∧ a.value ≠ none)) ∧
      s.yes + s.no ≤ s.total ∧
      (answersValueOk sampleDb → s.yes + s.no = s.total) ∧
      ∃ q ∈ sampleDb.questions, s.id = q.id ∧ s.text = q.text) :=
  c8_analytics ⟨sampleDb, some "h", ["admin123"]⟩ "admin123" sampleDb
    { authHeader := some "Bearer admin123" } 0 "f" true (by decide) (by decide)

/-- `POST /api/responses` can only fail with status 400, leaving the
database unchanged. -/
theorem postResponsesCore_err (name? : Option String)
    (answers? : Option AnswersField) (now : Nat) (db : Db) (s : Nat)
    (m : String) (db2 : Db)
    (h : postResponsesCore name? answers? now db = (.err s m, db2)) :
    s = 400 ∧ db2 = db := by
  rcases name? with _ | n
  · simp only [postResponsesCore, Prod.mk.injEq, Reply.err.injEq] at h
    exact ⟨h.1.1.symm, h.2.symm⟩
  · by_cases hn : jsTrim n = ""
    · simp only [postResponsesCore, hn, if_true, Prod.mk.injEq,
        Reply.err.injEq] at h
      exact ⟨h.1.1.symm, h.2.symm⟩
    · rcases answers? with _ | af
      · simp only [postResponsesCore, hn, if_false, Prod.mk.injEq,
          Reply.err.injEq] at h
        exact ⟨h.1.1.symm, h.2.symm⟩
      · by_cases haf : af.isObjectType = true
        · rw [postResponsesCore_valid n hn af haf now db] at h
          simp only [Prod.mk.injEq] at h
          exact absurd h.1 (by simp)
        · rw [Bool.not_eq_true] at haf
          simp only [postResponsesCore, hn, if_false, haf, Bool.not_false,
            if_true, Prod.mk.injEq, Reply.err.injEq] at h
          exact ⟨h.1.1.symm, h.2.symm⟩

/-- C2 (amended): every protected endpoint a variant exposes answers an
invalid credential with 401 and an error body, leaving all state unchanged;
the static-secret variant does not expose the response-delete route at all
(it 404s even though the session variant exposes and guards it); and the
health check, question reads and response submission are unauthenticated in
both variants (the latter can only fail with 400, never 401). -/
theorem c2_auth_guard (st : SessionState) (pw : String) (db : Db)
    (ep : Endpoint) (req : Request) (now : Nat) (fresh : String)
    (pwOk : Bool) (hep : ep ∈ protectedEndpoints)
    (hsess : requireAdminSession st.sessions req.authHeader = false)
    (hstat : requireAdminStatic pw req.authHeader = false) :
    handleSession st ep req now fresh pwOk = (.err 401 "Unauthorized", st) ∧
    (ep ∈ staticRoutes →
      handleStatic pw db ep req now = (.err 401 "Unauthorized", db)) ∧
    (ep ∉ staticRoutes → handleStatic pw db ep req now = (.notFound, db)) ∧
    handleSession st .health req now fresh pwOk = (.okTrue, st) ∧
    handleStatic pw db .health req now = (.okTrue, db) ∧
    (∃ rows, handleSession st .getQuestions req now fresh pwOk =
      (.questionList rows, st)) ∧
    (∃ rows, handleStatic pw db .getQuestions req now =
      (.questionList rows, db)) ∧
    (∀ s m st2, handleSession st .postResponses req now fresh pwOk =
      (.err s m, st2) → s = 400 ∧ st2 = st) ∧
    (∀ s m db2, handleStatic pw db .postResponses req now =
      (.err s m, db2) → s = 400 ∧ db2 = db) := by
  refine ⟨?_, ?_, ?_, rfl, rfl, ⟨_, rfl⟩, ⟨_, rfl⟩, ?_, ?_⟩
  · fin_cases hep <;>
      simp only [handleSession, hsess, Bool.not_false, if_true]
  · intro hmem
    fin_cases hep <;>
      first
        | (exact absurd hmem (by decide))
        | (simp only [handleStatic, hstat, Bool.not_false, if_true])
  · intro hmem
    fin_cases hep <;>
      first
        | (exact absurd (by decide) hmem)
        | rfl
  · intro s m st2 h
    simp only [handleSession] at h
    have h2 : postResponsesCore req.name req.answers now st.db =
        ((postResponsesCore req.name req.answers now st.db).1,
         (postResponsesCore req.name req.answers now st.db).2) := rfl
    rw [Prod.mk.injEq] at h
    obtain ⟨h1, hst2⟩ := h
    obtain ⟨hs, hdb⟩ := postResponsesCore_err req.name req.answers now st.db
      s m (postResponsesCore req.name req.answers now st.db).2
      (by rw [← h1])
    refine ⟨hs, ?_⟩
    rw [← hst2]
    cases st with
    | mk d a ses => simp [hdb]
  · intro s m db2 h
    simp only [handleStatic] at h
    exact postResponsesCore_err req.name req.answers now db s m db2 h

/-- Counterexample to C2 as stated: the claim asserts both variants expose
and guard response deletes, but the static-secret variant registers no
`DELETE /api/responses/:id` route — even the valid static credential gets
Express's 404 there, while the session variant exposes and guards it. -/
theorem c2_counterexample :
    Endpoint.deleteResponse ∈ sessionRoutes ∧
    Endpoint.deleteResponse ∈ protectedEndpoints ∧
    Endpoint.deleteResponse ∉ staticRoutes ∧
    handleStatic "admin123" sampleDb .deleteResponse
        { authHeader := some "Bearer admin123", paramId := 1 } 0 =
      (.notFound, sampleDb) := by decide

/-- Witness for the amended C2 at a protected endpoint with no
`Authorization` header at all. -/
theorem c2_auth_guard_witness :
    handleSession ⟨sampleDb, some "h", ["tok"]⟩ .postQuestions
        { text := some "Sneaky" } 0 "f" true =
      (.err 401 "Unauthorized", ⟨sampleDb, some "h", ["tok"]⟩) ∧
    (Endpoint.postQuestions ∈ staticRoutes →
      handleStatic "admin123" sampleDb .postQuestions { text := some "Sneaky" }
        0 = (.err 401 "Unauthorized", sampleDb)) ∧
    (Endpoint.postQuestions ∉ staticRoutes →
      handleStatic "admin123" sampleDb .postQuestions { text := some "Sneaky" }
        0 = (.notFound, sampleDb)) ∧
    handleSession ⟨sampleDb, some "h", ["tok"]⟩ .health { text := some "Sneaky" }
        0 "f" true = (.okTrue, ⟨sampleDb, some "h", ["tok"]⟩) ∧
    handleStatic "admin123" sampleDb .health { text := some "Sneaky" } 0 =
      (.okTrue, sampleDb) ∧
    (∃ rows, handleSession ⟨sampleDb, some "h", ["tok"]⟩ .getQuestions
        { text := some "Sneaky" } 0 "f" true =
      (.questionList rows, ⟨sampleDb, some "h", ["tok"]⟩)) ∧
    (∃ rows, handleStatic "admin123" sampleDb .getQuestions
        { text := some "Sneaky" } 0 = (.questionList rows, sampleDb)) ∧
    (∀ s m st2, handleSession ⟨sampleDb, some "h", ["tok"]⟩ .postResponses
        { text := some "Sneaky" } 0 "f" true = (.err s m, st2) →
      s = 400 ∧ st2 = ⟨sampleDb, some "h", ["tok"]⟩) ∧
    (∀ s m db2, handleStatic "admin123" sampleDb .postResponses
        { text := some "Sneaky" } 0 = (.err s m, db2) →
      s = 400 ∧ db2 = sampleDb) :=
  c2_auth_guard ⟨sampleDb, some "h", ["tok"]⟩ "admin123" sampleDb
    .postQuestions { text := some "Sneaky" } 0 "f" true (by decide)
    (by decide) (by decide)

theorem postQuestionsCore_answers (text? : Option String) (now : Nat)
    (db : Db) : (postQuestionsCore text? now db).2.answers = db.answers := by
  rcases text? with _ | t
  · rfl
  · by_cases ht : jsTrim t = "" <;>
      simp [postQuestionsCore, ht, dbInsertQuestion]

theorem putQuestionCore_answers (id : Nat) (text? : Option String) (db : Db) :
    (putQuestionCore id text? db).2.answers = db.answers := by
  rcases text? with _ | t
  · rfl
  · by_cases ht : jsTrim t = "" <;>
      simp [putQuestionCore, ht, dbUpdateQuestionText]

theorem postResponsesCore_answersOk (name? : Option String)
    (answers? : Option AnswersField) (now : Nat) (db : Db)
    (h : answersValueOk db) :
    answersValueOk (postResponsesCore name? answers? now db).2 := by
  rcases name? with _ | n
  · exact h
  · by_cases hn : jsTrim n = ""
    · simp only [postResponsesCore, hn, if_true]
      exact h
    · rcases answers? with _ | af
      · simp only [postResponsesCore, hn, if_false]
        exact h
      · by_cases haf : af.isObjectType = true
        · rw [postResponsesCore_valid n hn af haf now db]
          intro a ha
          simp only [List.mem_append] at ha
          rcases ha with ha | ha
          · exact h a ha
          · obtain ⟨_, e, _, _, hv⟩ := mem_answerRowsFrom ha
            rw [hv]
            exact safeVal_ok e.2
        · rw [Bool.not_eq_true] at haf
          simp only [postResponsesCore, hn, if_false, haf, Bool.not_false,
            if_true]
          exact h

/-- Every request handled by the session-variant dispatcher preserves the
closed answer-value invariant. -/
theorem handleSession_answersOk (st : SessionState) (ep : Endpoint)
    (req : Request) (now : Nat) (fresh : String) (pwOk : Bool)
    (h : answersValueOk st.db) :
    answersValueOk (handleSession st ep req now fresh pwOk).2.db := by
  cases ep with
  | health => exact h
  | adminLogin =>
    have hdb : (handleSession st .adminLogin req now fresh pwOk).2.db =
        st.db := by
      simp only [handleSession]
      split
      all_goals try rfl
      all_goals split
      all_goals try rfl
      all_goals split
      all_goals try rfl
      all_goals split
      all_goals try rfl
    rw [hdb]
    exact h
  | getQuestions => exact h
  | getLeaderboard => exact h
  | postQuestions =>
    simp only [handleSession]
    split
    · exact h
    · intro a ha
      rw [postQuestionsCore_answers req.text now st.db] at ha
      exact h a ha
  | putQuestion =>
    simp only [handleSession]
    split
    · exact h
    · intro a ha
      rw [putQuestionCore_answers req.paramId req.text st.db] at ha
      exact h a ha
  | deleteQuestion =>
    simp only [handleSession]
    split
    · exact h
    · exact h
  | postResponses =>
    exact postResponsesCore_answersOk req.name req.answers now st.db h
  | getResponses =>
    simp only [handleSession]
    split
    · exact h
    · exact h
  | deleteResponse =>
    simp only [handleSession]
    split
    · exact h
    · intro a ha
      simp only [deleteResponseCore, dbDeleteResponseCascade,
        List.mem_filter] at ha
      exact h a ha.1
  | getAnalytics =>
    simp only [handleSession]
    split
    · exact h
    · exact h

/-- Every request handled by the static-variant dispatcher preserves the
closed answer-value invariant. -/
theorem handleStatic_answersOk (pw : String) (db : Db) (ep : Endpoint)
    (req : Request) (now : Nat) (h : answersValueOk db) :
    answersValueOk (handleStatic pw db ep req now).2 := by
  cases ep with
  | health => exact h
  | adminLogin => exact h
  | getQuestions => exact h
  | getLeaderboard => exact h
  | postQuestions =>
    simp only [handleStatic]
    split
    · exact h
    · intro a ha
      rw [postQuestionsCore_answers req.text now db] at ha
      exact h a ha
  | putQuestion =>
    simp only [handleStatic]
    split
    · exact h
    · intro a ha
      rw [putQuestionCore_answers req.paramId req.text db] at ha
      exact h a ha
  | deleteQuestion =>
    simp only [handleStatic]
    split
    · exact h
    · exact h
  | postResponses =>
    exact postResponsesCore_answersOk req.name req.answers now db h
  | getResponses =>
    simp only [handleStatic]
    split
    · exact h
    · exact h
  | deleteResponse => exact h
  | getAnalytics =>
    simp only [handleStatic]
    split
    · exact h
    · exact h

theorem reachableSession_answersOk (st : SessionState)
    (h : ReachableSession st) : answersValueOk st.db := by
  induction h with
  | boot hash =>
    intro a ha
    simp [initSessionState, initDb] at ha
  | step hr hs ih =>
    cases hs with
    | request ep req now freshToken passwordMatches =>
      exact handleSession_answersOk _ ep req now freshToken
        passwordMatches ih
    | expireToken t => exact ih

theorem reachableStatic_answersOk (pw : String) (db : Db)
    (h : ReachableStatic pw db) : answersValueOk db := by
  induction h with
  | boot =>
    intro a ha
    simp [initDb] at ha
  | step hr hs ih =>
    cases hs with
    | request ep req now => exact handleStatic_answersOk pw _ ep req now ih

/-- C4: in every state reachable from a first boot on an empty database — in
either variant — every stored answer value is one of the accepted tokens or
`NULL`; moreover any valid submission on such a state is accepted (not
rejected), and the state it produces still satisfies the invariant, so an
unrecognized value can only have been stored as `NULL`. -/
theorem c4_answer_value_invariant (st : SessionState)
    (hst : ReachableSession st) (pw : String) (db : Db)
    (hdb : ReachableStatic pw db) :
    answersValueOk st.db ∧ answersValueOk db ∧
    (∀ (name : String) (af : AnswersField) (now : Nat),
      jsTrim name ≠ "" → af.isObjectType = true →
      ∃ rid score dbAfter,
        postResponsesCore (some name) (some af) now st.db =
          (.submitted rid score, dbAfter) ∧
        answersValueOk dbAfter) := by
  refine ⟨reachableSession_answersOk st hst,
    reachableStatic_answersOk pw db hdb, ?_⟩
  intro name af now hname haf
  refine ⟨st.db.nextResponseId, ((valuesOf af).map answerPoints).sum, _,
    postResponsesCore_valid name hname af haf now st.db, ?_⟩
  have h2 := postResponsesCore_answersOk (some name) (some af) now st.db
    (reachableSession_answersOk st hst)
  rw [postResponsesCore_valid name hname af haf now st.db] at h2
  exact h2

/-- Witness for C4: the boot states of both variants satisfy the invariant,
and a submission carrying an unrecognized value on the session boot state is
accepted with its post-state still satisfying the invariant. -/
theorem c4_answer_value_invariant_witness :
    answersValueOk (initSessionState "h").db ∧ answersValueOk initDb ∧
    (∃ rid score dbAfter,
      postResponsesCore (some "Zed") (some (.obj [(2, .str "bogus")])) 5
          (initSessionState "h").db = (.submitted rid score, dbAfter) ∧
      answersValueOk dbAfter) :=
  have h := c4_answer_value_invariant (initSessionState "h")
    (ReachableSession.boot "h") "pw" initDb ReachableStatic.boot
  ⟨h.1, h.2.1, h.2.2 "Zed" (.obj [(2, .str "bogus")]) 5 (by decide) rfl⟩
